import Mathlib

/-!
Verification development for the futurex-openedx-extensions role-resolution
core: role-record validation, role-type classification, the redundancy
elimination query engine, the bulk add/delete/update mutation pipeline, and
the tenant access checker.  Pure helpers (`ids_string_to_list`) are translated
directly from `futurex_openedx_extensions/helpers/converters.py`; the
components of `futurex_openedx_extensions/helpers/roles.py` are modelled from
the specification, with behavioural details (messages, error codes) pinned by
the repository test suite `tests/test_helpers/test_roles.py`.
-/

deriving instance DecidableEq for Except

namespace FxRoles

/-- ASCII lower-casing of a single character, the embedding of Python's
`str.lower` restricted to the ASCII org names this system manipulates. -/
def lowerChar (c : Char) : Char :=
  if 65 ≤ c.toNat ∧ c.toNat ≤ 90 then Char.ofNat (c.toNat + 32) else c

/-- ASCII lower-casing of a string (embedding of `str.lower`). -/
def lowerStr (s : String) : String :=
  ⟨s.data.map lowerChar⟩

theorem toNat_ofNat_of_valid (n : Nat) (h : n.isValidChar) :
    (Char.ofNat n).toNat = n := by
  unfold Char.ofNat
  split
  · rfl
  · contradiction

theorem lowerChar_toNat (c : Char) :
    (lowerChar c).toNat = if 65 ≤ c.toNat ∧ c.toNat ≤ 90 then c.toNat + 32 else c.toNat := by
  unfold lowerChar
  split
  · rename_i h
    exact toNat_ofNat_of_valid _ (Or.inl (by omega))
  · rfl

theorem lowerChar_idem (c : Char) : lowerChar (lowerChar c) = lowerChar c := by
  by_cases h : 65 ≤ c.toNat ∧ c.toNat ≤ 90
  · have h1 : (lowerChar c).toNat = c.toNat + 32 := by
      rw [lowerChar_toNat]; simp [h]
    have h2 : ¬(65 ≤ (lowerChar c).toNat ∧ (lowerChar c).toNat ≤ 90) := by omega
    rw [lowerChar, if_neg h2]
  · have h1 : lowerChar c = c := by rw [lowerChar, if_neg h]
    rw [h1, h1]

theorem lowerStr_idem (s : String) : lowerStr (lowerStr s) = lowerStr s := by
  unfold lowerStr
  simp [List.map_map, Function.comp]
  congr 1
  exact List.map_congr_left (fun c _ => lowerChar_idem c)

/-- Splitting a character list at every comma, the embedding of Python's
`str.split(',')`: the empty string yields one empty token, and consecutive
commas yield empty tokens. -/
def splitCommaChars (l : List Char) : List (List Char) :=
  match l with
  | [] => [[]]
  | c :: rest =>
    let r := splitCommaChars rest
    if c = ',' then [] :: r
    else
      match r with
      | [] => [[c]]
      | h :: t => (c :: h) :: t

/-- Embedding of Python's `str.split(',')`. -/
def splitComma (s : String) : List String :=
  (splitCommaChars s.data).map (fun l => ⟨l⟩)

/-- Remove leading and trailing whitespace from a character list. -/
def stripChars (l : List Char) : List Char :=
  ((l.dropWhile Char.isWhitespace).reverse.dropWhile Char.isWhitespace).reverse

/-- Embedding of Python's `str.strip()`. -/
def pyStrip (s : String) : String :=
  ⟨stripChars s.data⟩

/-- Digits interpreted in base 10 (helper for the `int()` embedding). -/
def digitsToNat (l : List Char) : Nat :=
  l.foldl (fun a c => a * 10 + (c.toNat - 48)) 0

/-- `True` when `l` is a non-empty run of ASCII decimal digits. -/
def allDigits (l : List Char) : Bool :=
  !l.isEmpty && l.all (fun c => c.isDigit)

/-- Embedding of Python's `int(token)` for an already-stripped token: an
optional sign followed by at least one decimal digit; anything else raises
`ValueError`, modelled as `none`. -/
def pyParseInt (s : String) : Option Int :=
  match s.data with
  | '-' :: rest => if allDigits rest then some (-(Int.ofNat (digitsToNat rest))) else none
  | '+' :: rest => if allDigits rest then some (Int.ofNat (digitsToNat rest)) else none
  | l => if allDigits l then some (Int.ofNat (digitsToNat l)) else none

/-- The message of the `ValueError` raised by Python's `int()` on a bad
token. -/
def intErrorMessage (t : String) : String :=
  "invalid literal for int() with base 10: '" ++ t ++ "'"

/-- Sequential conversion of the non-blank tokens, stopping at the first token
`int()` rejects — the evaluation order of the list comprehension in
`ids_string_to_list`. -/
def convertTokens (l : List String) : Except String (List Int) :=
  match l with
  | [] => Except.ok []
  | t :: rest =>
    match pyParseInt (pyStrip t) with
    | none => Except.error (intErrorMessage (pyStrip t))
    | some n =>
      match convertTokens rest with
      | Except.error e => Except.error e
      | Except.ok ns => Except.ok (n :: ns)

/-- The non-blank tokens of a comma-separated string, in input order. -/
def nonBlankTokens (s : String) : List String :=
  (splitComma s).filter (fun t => !(pyStrip t == ""))

/-- Translation of `ids_string_to_list` from
`futurex_openedx_extensions/helpers/converters.py`: convert a comma-separated
string of ids to a list of integers; blank tokens are skipped, duplicates are
kept, and a non-integer token raises `ValueError` (modelled as
`Except.error`). -/
def ids_string_to_list (s : String) : Except String (List Int) :=
  if s == "" then Except.ok []
  else convertTokens (nonBlankTokens s)

theorem convertTokens_all_ok (l : List String)
    (h : ∀ t ∈ l, (pyParseInt (pyStrip t)).isSome) :
    convertTokens l = Except.ok (l.filterMap (fun t => pyParseInt (pyStrip t))) := by
  induction l with
  | nil => rfl
  | cons t rest ih =>
    have ht : (pyParseInt (pyStrip t)).isSome := h t (List.mem_cons_self t rest)
    obtain ⟨n, hn⟩ := Option.isSome_iff_exists.mp ht
    have hrest := ih (fun x hx => h x (List.mem_cons_of_mem t hx))
    simp only [convertTokens, hn, hrest, List.filterMap_cons]

theorem convertTokens_error_mem (l : List String) (e : String)
    (h : convertTokens l = Except.error e) :
    ∃ t ∈ l, pyParseInt (pyStrip t) = none := by
  induction l with
  | nil => simp [convertTokens] at h
  | cons t rest ih =>
    by_cases hp : pyParseInt (pyStrip t) = none
    · exact ⟨t, List.mem_cons_self t rest, hp⟩
    · obtain ⟨n, hn⟩ := Option.ne_none_iff_exists'.mp hp
      simp only [convertTokens, hn] at h
      cases hrec : convertTokens rest with
      | error e' =>
        obtain rfl : e' = e := by simpa [hrec] using h
        obtain ⟨x, hx, hxn⟩ := ih hrec
        exact ⟨x, List.mem_cons_of_mem t hx, hxn⟩
      | ok ns => simp [hrec] at h

theorem convertTokens_first_error (l : List String) (t : String)
    (h : l.find? (fun x => (pyParseInt (pyStrip x)).isNone) = some t) :
    convertTokens l = Except.error (intErrorMessage (pyStrip t)) := by
  induction l with
  | nil => simp at h
  | cons a rest ih =>
    by_cases hp : (pyParseInt (pyStrip a)).isNone
    · rw [List.find?_cons_of_pos _ (by simpa using hp)] at h
      obtain rfl : a = t := by simpa using h
      simp only [convertTokens, Option.isNone_iff_eq_none.mp hp]
    · rw [List.find?_cons_of_neg _ (by simpa using hp)] at h
      have hp' : pyParseInt (pyStrip a) ≠ none := fun hc => hp (by simp [hc])
      obtain ⟨n, hn⟩ := Option.ne_none_iff_exists'.mp hp'
      simp only [convertTokens, hn, ih h]

/-- Modelled from the spec: the coded error taxonomy of §7 (the
`FXExceptionCodes` enum of the missing `helpers/exceptions.py`). -/
inductive FXCode
  | ROLE_INVALID_ENTRY
  | ROLE_UNSUPPORTED
  | ROLE_CREATE
  | ROLE_DELETE
  | USER_NOT_FOUND
  | INVALID_INPUT
  | UNKNOWN_ERROR
deriving DecidableEq, Repr

/-- A coded failure: an `FXExceptionCodes` member together with its message. -/
structure FXError where
  code : FXCode
  message : String
deriving DecidableEq, Repr

/-- The platform user directory entry consumed read-only by the core
(§6 external interfaces). -/
structure UserInfo where
  id : Nat
  username : String
  email : String
  isActive : Bool
  isStaff : Bool
  isSuperuser : Bool
deriving DecidableEq, Repr

/-- A grant record as seen by the Role Query Engine: the owning user joined
in, a role name, an org (case-insensitively compared) and a course id where
the empty string models a null `course_id`. -/
structure QGrant where
  user : UserInfo
  role : String
  org : String
  courseId : String
deriving DecidableEq, Repr

/-- Modelled from the spec: `RoleType` of the missing `helpers/roles.py` —
exactly two values, derived from the shape of a record. -/
inductive RoleType
  | org_wide
  | course_specific
deriving DecidableEq, Repr

/-- ORG_WIDE when `course_id` is empty, COURSE_SPECIFIC otherwise (§3). -/
def QGrant.roleType (g : QGrant) : RoleType :=
  if g.courseId = "" then RoleType.org_wide else RoleType.course_specific

/-- Modelled from the spec: the role names of category COURSE_ONLY in the
missing `helpers/constants.py` catalog. -/
def COURSE_ACCESS_ROLES_COURSE_ONLY : List String :=
  ["beta_testers", "ccx_coach", "finance_admin"]

/-- Modelled from the spec: the role names of category TENANT_ONLY in the
missing `helpers/constants.py` catalog. -/
def COURSE_ACCESS_ROLES_TENANT_ONLY : List String :=
  ["org_course_creator_group", "support"]

/-- Modelled from the spec: the role names of category TENANT_OR_COURSE in
the missing `helpers/constants.py` catalog. -/
def COURSE_ACCESS_ROLES_TENANT_OR_COURSE : List String :=
  ["staff", "instructor", "data_researcher"]

/-- Modelled from the spec: role names recognized by the platform but not
permitted to be managed here (category UNSUPPORTED, §3). -/
def COURSE_ACCESS_ROLES_UNSUPPORTED : List String :=
  ["library_user", "course_creator_group"]

/-- Every role name the Role Catalog recognizes at all. -/
def allKnownRoles : List String :=
  COURSE_ACCESS_ROLES_UNSUPPORTED ++ COURSE_ACCESS_ROLES_COURSE_ONLY ++
    COURSE_ACCESS_ROLES_TENANT_ONLY ++ COURSE_ACCESS_ROLES_TENANT_OR_COURSE

/-- The role names the mutation pipeline accepts (everything managed, i.e.
not UNSUPPORTED). -/
def addableRoles : List String :=
  COURSE_ACCESS_ROLES_COURSE_ONLY ++ COURSE_ACCESS_ROLES_TENANT_ONLY ++
    COURSE_ACCESS_ROLES_TENANT_OR_COURSE

/-- Case-insensitive substring test used by the `search_text` filter. -/
def containsCI (hay needle : String) : Bool :=
  let h := (lowerStr hay).data
  let n := (lowerStr needle).data
  (List.range (h.length + 1)).any (fun i => decide (n.isPrefixOf (h.drop i)))

/-- Modelled from the spec: the per-record filter of
`get_course_access_roles_queryset` (§4.3) — superusers and staff excluded
unconditionally, `orgs_filter` mandatory and case-insensitive, org-wide
grants covering any `course_ids_filter`, optional role / user / search /
active filters, and `exclude_role_type` dropping one `RoleType`. -/
def queryPred (orgsFilter courseIdsFilter rolesFilter : List String)
    (users : Option (List Nat)) (searchText : Option String)
    (activeFilter : Option Bool) (excludeRoleType : Option RoleType)
    (g : QGrant) : Bool :=
  (!g.user.isSuperuser && !g.user.isStaff)
  && decide (lowerStr g.org ∈ orgsFilter.map lowerStr)
  && (decide (courseIdsFilter = []) || decide (g.courseId ∈ courseIdsFilter)
      || decide (g.courseId = ""))
  && (decide (rolesFilter = []) || decide (g.role ∈ rolesFilter))
  && (match users with
      | none => true
      | some ids => decide (g.user.id ∈ ids))
  && (match searchText with
      | none => true
      | some s => containsCI g.user.username s || containsCI g.user.email s)
  && (match activeFilter with
      | none => true
      | some b => g.user.isActive == b)
  && (match excludeRoleType with
      | none => true
      | some t => !decide (g.roleType = t))

/-- Modelled from the spec: the `remove_redundant=True` projection (§4.3) —
drop every COURSE_SPECIFIC grant implied by an ORG_WIDE grant held by the
same user for the same role and org, evaluated within the given (already
filtered) set. -/
def removeRedundantStep (l : List QGrant) : List QGrant :=
  l.filter (fun g =>
    !(decide (g.roleType = RoleType.course_specific) &&
      l.any (fun g2 =>
        decide (g2.roleType = RoleType.org_wide) && decide (g2.user.id = g.user.id)
          && decide (g2.role = g.role) && decide (lowerStr g2.org = lowerStr g.org))))

/-- Modelled from the spec: `get_course_access_roles_queryset` of the missing
`helpers/roles.py` (§4.3) — all filters applied first, then redundancy
elimination as the final step when `remove_redundant` is set.  The
`user_id_distinct` projection and the eager usage-error checks on malformed
filter values are not modelled (they do not alter the returned grant set). -/
def get_course_access_roles_queryset (db : List QGrant)
    (orgsFilter courseIdsFilter rolesFilter : List String)
    (users : Option (List Nat)) (searchText : Option String)
    (activeFilter : Option Bool) (excludeRoleType : Option RoleType)
    (removeRedundant : Bool) : List QGrant :=
  let filtered := db.filter
    (queryPred orgsFilter courseIdsFilter rolesFilter users searchText activeFilter
      excludeRoleType)
  if removeRedundant then removeRedundantStep filtered else filtered

/-- The payload accompanying a tenant-access check result: either the parse
error text or a list of tenant ids. -/
inductive CheckDetails
  | errorText (e : String)
  | tenantIds (ids : List Int)
deriving DecidableEq, Repr

/-- Result of `check_tenant_access`: success flag, failure reason (empty on
success) and the detail payload. -/
structure CheckResult where
  ok : Bool
  reason : String
  details : CheckDetails
deriving DecidableEq, Repr

/-- Modelled from the spec: `check_tenant_access` of the missing
`helpers/roles.py` (§4.6).  `allIds` is the platform tenant registry and
`userIds` the caller's permitted tenants; the CSV is parsed with
`ids_string_to_list`, an empty CSV means "all permitted tenants", unknown ids
and inaccessible ids fail with the exact reasons pinned by the test suite. -/
def check_tenant_access (allIds userIds : List Int) (csv : String) : CheckResult :=
  match ids_string_to_list csv with
  | Except.error e =>
    ⟨false, "Invalid tenant IDs provided. It must be a comma-separated list of integers",
      CheckDetails.errorText e⟩
  | Except.ok ids =>
    if ids = [] then ⟨true, "", CheckDetails.tenantIds userIds⟩
    else
      let unknown := ids.filter (fun i => !decide (i ∈ allIds))
      if unknown = [] then
        let inaccessible := ids.filter (fun i => !decide (i ∈ userIds))
        if inaccessible = [] then ⟨true, "", CheckDetails.tenantIds ids⟩
        else ⟨false, "User does not have access to these tenants",
          CheckDetails.tenantIds inaccessible⟩
      else ⟨false, "Invalid tenant IDs provided", CheckDetails.tenantIds unknown⟩

/-- A raw grant record as handed to the Role Record Validator: the stored
row id, the owning user, the role name, the org, the course id and the org
implied by the course id (`''` models an absent value throughout). -/
structure AccessRecord where
  id : Nat
  user_id : Nat
  role : String
  org : String
  course_id : String
  course_org : String
deriving DecidableEq, Repr

/-- The log line emitted for an invalid record:
`logger.error('Invalid course access role: %s (id: %s)', msg, id)`. -/
def logLine (id : Nat) (msg : String) : String :=
  "Invalid course access role: " ++ msg ++ " (id: " ++ toString id ++ ")"

/-- Modelled from the spec: `validate_course_access_role` of the missing
`helpers/roles.py` (§4.2).  Checks a single grant record against the
catalog's structural rules; returns the coded failure together with the list
of log lines emitted while checking (messages and codes pinned by
`test_validate_course_access_role_invalid`). -/
def validate_course_access_role (r : AccessRecord) :
    Except FXError Unit × List String :=
  if ¬ r.role ∈ allKnownRoles then
    let m := "invalid role (" ++ r.role ++ ")!"
    (Except.error ⟨FXCode.ROLE_INVALID_ENTRY, m⟩, [logLine r.id m])
  else if r.role ∈ COURSE_ACCESS_ROLES_UNSUPPORTED then
    (Except.error ⟨FXCode.ROLE_UNSUPPORTED, "unsupported role (" ++ r.role ++ ")!"⟩, [])
  else if r.role ∈ COURSE_ACCESS_ROLES_COURSE_ONLY ∧ (r.org = "" ∨ r.course_id = "") then
    let m := "role " ++ r.role ++ " must have both course_id and org!"
    (Except.error ⟨FXCode.ROLE_INVALID_ENTRY, m⟩, [logLine r.id m])
  else if r.role ∈ COURSE_ACCESS_ROLES_TENANT_ONLY ∧ r.org = "" then
    let m := "role " ++ r.role ++ " must have an org!"
    (Except.error ⟨FXCode.ROLE_INVALID_ENTRY, m⟩, [logLine r.id m])
  else if r.role ∈ COURSE_ACCESS_ROLES_TENANT_ONLY ∧ ¬ r.course_id = "" then
    let m := "role " ++ r.role ++ " must not have a course_id!"
    (Except.error ⟨FXCode.ROLE_INVALID_ENTRY, m⟩, [logLine r.id m])
  else if r.role ∈ COURSE_ACCESS_ROLES_TENANT_OR_COURSE ∧ r.org = "" then
    let m := "role " ++ r.role ++ " must have at least an org, it can also have a course_id!"
    (Except.error ⟨FXCode.ROLE_INVALID_ENTRY, m⟩, [logLine r.id m])
  else if ¬ r.course_id = "" ∧ ¬ r.course_org = "" ∧ ¬ lowerStr r.course_org = lowerStr r.org then
    let m := "expected org value to be (" ++ r.course_org ++ "), but got (" ++ r.org ++ ")!"
    (Except.error ⟨FXCode.ROLE_INVALID_ENTRY, m⟩, [logLine r.id m])
  else (Except.ok (), [])

/-- A persisted `CourseAccessRole` row as manipulated by the mutation
pipeline (`course_id = ""` models `CourseKeyField.Empty`). -/
structure Row where
  userId : Nat
  role : String
  org : String
  courseId : String
deriving DecidableEq, Repr

/-- The structural identity of a grant used for deduplication and for the
hash-code based delete: `(role, lowercase org, course_id)` (§3, §4.7
Clean). -/
structure Key where
  role : String
  orgLowerCase : String
  courseId : String
deriving DecidableEq, Repr

/-- The dedup key of a stored row. -/
def Row.key (r : Row) : Key :=
  ⟨r.role, lowerStr r.org, r.courseId⟩

/-- The orgs of the given tenants, lower-cased, per the external tenant
directory `td` (tenant id → orgs). -/
def orgsOfTenantsLower (td : List (Nat × List String)) (ids : List Nat) : List String :=
  ((td.filter (fun p => decide (p.1 ∈ ids))).flatMap (fun p => p.2)).map lowerStr

/-- Render a list of naturals the way Python renders an int list, e.g.
`[1, 2]`. -/
def fmtNatList (l : List Nat) : String :=
  "[" ++ String.intercalate ", " (l.map toString) ++ "]"

/-- Render a list of strings the way Python renders a str list, e.g.
`['a', 'b']`. -/
def fmtStrList (l : List String) : String :=
  "[" ++ String.intercalate ", " (l.map (fun s => "'" ++ s ++ "'")) ++ "]"

/-- Modelled from the spec: `COURSE_ACCESS_ROLES_MAX_USERS_PER_OPERATION`
of the missing `helpers/constants.py`. -/
def MAX_USERS_PER_OPERATION : Nat := 25

/-- Modelled from the spec: the whole-call validation of
`add_course_access_roles` (§4.7 Add) — tenant ids known and non-empty, a
bounded non-empty user list, a managed role, exactly one of `tenant_wide`
or `course_ids`, and well-formed course ids whose org is inside the
tenants' orgs.  `courseOrgOf` is the external course catalog
(`none` = malformed course id). -/
def addValidate (td : List (Nat × List String)) (courseOrgOf : String → Option String)
    (tenantIds : List Nat) (userKeys : List Nat) (role : String)
    (tenantWide : Bool) (courseIds : List String) : Option FXError :=
  if tenantIds = [] then some ⟨FXCode.INVALID_INPUT, "No valid tenant IDs provided"⟩
  else
    let unknown := tenantIds.filter (fun i => !td.any (fun p => decide (p.1 = i)))
    if ¬ unknown = [] then
      some ⟨FXCode.INVALID_INPUT, "Invalid tenant IDs: " ++ fmtNatList unknown⟩
    else if userKeys = [] then some ⟨FXCode.INVALID_INPUT, "No users provided!"⟩
    else if MAX_USERS_PER_OPERATION < userKeys.length then
      some ⟨FXCode.INVALID_INPUT,
        "add_course_access_roles cannot proces more than "
          ++ toString MAX_USERS_PER_OPERATION ++ " users at a time!"⟩
    else if ¬ role ∈ addableRoles then
      some ⟨FXCode.ROLE_INVALID_ENTRY, "Invalid role: " ++ role⟩
    else if (tenantWide ∧ ¬ courseIds = []) ∨ (¬ tenantWide ∧ courseIds = []) then
      some ⟨FXCode.INVALID_INPUT, "Conflict between tenant_wide and course_ids"⟩
    else
      let badFormat := courseIds.filter (fun c => (courseOrgOf c).isNone)
      if ¬ badFormat = [] then
        some ⟨FXCode.INVALID_INPUT, "Invalid course IDs provided: " ++ fmtStrList badFormat⟩
      else
        let tOrgs := orgsOfTenantsLower td tenantIds
        match courseIds.find?
            (fun c => !decide (lowerStr ((courseOrgOf c).getD "") ∈ tOrgs)) with
        | some c => some ⟨FXCode.INVALID_INPUT,
            "Course ID " ++ c ++ " does not belong to the provided tenant IDs"⟩
        | none => none

/-- The desired grant keys of one add call: one ORG_WIDE key per tenant org
when `tenant_wide`, else one COURSE_SPECIFIC key per course id. -/
def desiredKeys (role : String) (tOrgs : List String) (tenantWide : Bool)
    (courseIds : List String) (courseOrgOf : String → Option String) : List Key :=
  if tenantWide then tOrgs.map (fun o => ⟨role, o, ""⟩)
  else courseIds.map (fun c => ⟨role, lowerStr ((courseOrgOf c).getD ""), c⟩)

/-- Per-user outcome classification of an add call (§4.7 Add). -/
inductive Outcome
  | added
  | updated
  | notUpdated
deriving DecidableEq, Repr

/-- The user's existing rows inside the tenants' orgs. -/
def userRowsOf (db : List Row) (uid : Nat) (tOrgs : List String) : List Row :=
  db.filter (fun r => decide (r.userId = uid ∧ lowerStr r.org ∈ tOrgs))

/-- The dedup keys the user already holds for this role inside the tenants'
orgs. -/
def roleKeysOf (db : List Row) (uid : Nat) (role : String) (tOrgs : List String) :
    List Key :=
  ((userRowsOf db uid tOrgs).filter (fun r => decide (r.role = role))).map Row.key

/-- The existing COURSE_SPECIFIC keys made redundant by an ORG_WIDE key (held
or desired) for the same role and org — the grants the data-cleaning pass
deletes. -/
def redundantOf (db : List Row) (uid : Nat) (role : String) (tOrgs : List String)
    (desired : List Key) : List Key :=
  (roleKeysOf db uid role tOrgs).filter (fun k =>
    !decide (k.courseId = "") &&
      (roleKeysOf db uid role tOrgs ++ desired).any (fun k2 =>
        decide (k2.courseId = "" ∧ k2.orgLowerCase = k.orgLowerCase)))

/-- The desired keys the user does not hold yet — the rows to create. -/
def toCreateOf (db : List Row) (uid : Nat) (role : String) (tOrgs : List String)
    (desired : List Key) : List Key :=
  desired.filter (fun k => !decide (k ∈ roleKeysOf db uid role tOrgs))

/-- Modelled from the spec: the per-user core of `add_course_access_roles`
(§4.7 Add) — diff the desired keys against the user's existing grants inside
the tenants' orgs, delete now-redundant COURSE_SPECIFIC grants of the same
role subsumed by an ORG_WIDE grant (data cleaning), create the missing
rows, and classify the outcome. -/
def processUser (db : List Row) (uid : Nat) (role : String) (tOrgs : List String)
    (desired : List Key) : Outcome × List Row :=
  let redundant := redundantOf db uid role tOrgs desired
  let toCreate := toCreateOf db uid role tOrgs desired
  let db2 := db.filter (fun r => !decide (r.userId = uid ∧ r.key ∈ redundant))
    ++ toCreate.map (fun k => ⟨uid, role, k.orgLowerCase, k.courseId⟩)
  let oc := if toCreate = [] ∧ redundant = [] then Outcome.notUpdated
            else if userRowsOf db uid tOrgs = [] then Outcome.added else Outcome.updated
  (oc, db2)

/-- One entry of the `failed` list: user identity plus the coded reason. -/
structure FailedEntry where
  userId : Nat
  username : Option String
  email : Option String
  reasonCode : FXCode
  reasonMessage : String
deriving DecidableEq, Repr

/-- The `{added, updated, not_updated, failed}` classification returned by
an add call. -/
structure AddResult where
  added : List Nat
  updated : List Nat
  notUpdated : List Nat
  failed : List FailedEntry
deriving DecidableEq, Repr

/-- What a successful add call returns in the model: the classification, the
resulting grant table, and the users whose Resolution Cache entry was
invalidated. -/
structure AddOutcome where
  result : AddResult
  db : List Row
  cacheInvalidated : List Nat
deriving DecidableEq, Repr

/-- Modelled from the spec: the per-user loop of `add_course_access_roles`
(§4.7 Add) — each user isolated from the others' failures; an unresolvable
user key records a USER_NOT_FOUND entry in `failed` and processing
continues.  User keys are modelled as numeric ids resolved against the
user directory. -/
def processUsers (userDir : List UserInfo) (db : List Row) (keys : List Nat)
    (role : String) (tOrgs : List String) (desired : List Key) :
    AddResult × List Row :=
  match keys with
  | [] => (⟨[], [], [], []⟩, db)
  | k :: rest =>
    match userDir.find? (fun u => decide (u.id = k)) with
    | none =>
      let p := processUsers userDir db rest role tOrgs desired
      ({p.1 with failed := ⟨k, none, none, FXCode.USER_NOT_FOUND,
          "User with ID (" ++ toString k ++ ") does not exist!"⟩ :: p.1.failed}, p.2)
    | some _ =>
      let q := processUser db k role tOrgs desired
      let p := processUsers userDir q.2 rest role tOrgs desired
      match q.1 with
      | Outcome.added => ({p.1 with added := k :: p.1.added}, p.2)
      | Outcome.updated => ({p.1 with updated := k :: p.1.updated}, p.2)
      | Outcome.notUpdated => ({p.1 with notUpdated := k :: p.1.notUpdated}, p.2)

/-- Modelled from the spec: `add_course_access_roles` of the missing
`helpers/roles.py` (§4.7 Add).  Whole-call validation first, then per-user
processing; `dry_run=True` computes the same classification while leaving
the grant table untouched and invalidating no cache entry. -/
def add_course_access_roles (td : List (Nat × List String)) (userDir : List UserInfo)
    (courseOrgOf : String → Option String) (db : List Row)
    (tenantIds : List Nat) (userKeys : List Nat) (role : String)
    (tenantWide : Bool) (courseIds : List String) (dryRun : Bool) :
    Except FXError AddOutcome :=
  match addValidate td courseOrgOf tenantIds userKeys role tenantWide courseIds with
  | some e => Except.error e
  | none =>
    let tOrgs := orgsOfTenantsLower td tenantIds
    let desired := desiredKeys role tOrgs tenantWide courseIds courseOrgOf
    let p := processUsers userDir db userKeys role tOrgs desired
    if dryRun then Except.ok ⟨p.1, db, []⟩
    else Except.ok ⟨p.1, p.2,
      userKeys.filter (fun k => userDir.any (fun u => decide (u.id = k)))⟩

/-- Modelled from the spec: `delete_course_access_roles` of the missing
`helpers/roles.py` (§4.7 Delete) — remove every grant of `user` whose org
is inside the given tenants' orgs; when nothing was removed, fail with a
coded error naming the user and the tenant ids and leave the table
unchanged. -/
def delete_course_access_roles (td : List (Nat × List String)) (db : List Row)
    (tenantIds : List Nat) (user : UserInfo) : List Row × Option FXError :=
  let tOrgs := orgsOfTenantsLower td tenantIds
  let remaining := db.filter (fun r => !decide (r.userId = user.id ∧ lowerStr r.org ∈ tOrgs))
  if remaining.length = db.length then
    (db, some ⟨FXCode.ROLE_DELETE,
      "No role found to delete for the user (" ++ user.username
        ++ ") within the given tenants " ++ fmtNatList tenantIds ++ "!"⟩)
  else (remaining, none)

/-- The `{error_code, error_message}` dictionary returned by
`update_course_access_roles` (never raises). -/
structure UpdateResult where
  error_code : Option FXCode
  error_message : Option String
deriving DecidableEq, Repr

/-- The observable effect of an update call in the model: the structured
result, the resulting grant table, how many delete and add calls were
issued, and the users whose cache entry was invalidated. -/
structure UpdateOutcome where
  result : UpdateResult
  db : List Row
  deleteCalls : Nat
  addCalls : Nat
  cacheInvalidated : List Nat
deriving DecidableEq, Repr

/-- The distinct role names appearing across all course role lists, used to
group course roles into one add call per role (§4.7 Update). -/
def rolesOfCourses (courseRoles : List (String × List String)) : List String :=
  (courseRoles.flatMap (fun p => p.2)).dedup

/-- Run the grouped add calls of an update, stopping at the first failure;
returns the resulting table, how many add calls were issued, and the first
failure (relayed verbatim from the add call's first failed entry). -/
def runAdds (td : List (Nat × List String)) (userDir : List UserInfo)
    (courseOrgOf : String → Option String) (db : List Row) (user : UserInfo)
    (tenantId : Nat) (groups : List (String × Bool × List String)) :
    List Row × Nat × Option (FXCode × String) :=
  match groups with
  | [] => (db, 0, none)
  | (ρ, tw, cids) :: rest =>
    match add_course_access_roles td userDir courseOrgOf db [tenantId] [user.id] ρ tw
        cids false with
    | Except.error e => (db, 1, some (FXCode.UNKNOWN_ERROR, e.message))
    | Except.ok o =>
      match o.result.failed with
      | [] =>
        let p := runAdds td userDir courseOrgOf o.db user tenantId rest
        (p.1, p.2.1 + 1, p.2.2)
      | f :: _ => (o.db, 1, some (f.reasonCode, f.reasonMessage))

/-- Modelled from the spec: `update_course_access_roles` of the missing
`helpers/roles.py` (§4.7 Update) — full replace within the tenant: empty
input is rejected with INVALID_INPUT before anything runs, `dry_run`
short-circuits before delete/add, otherwise delete all grants inside the
tenant then issue one grouped add call per role, relaying the first
failure.  The duck-typing checks on the raw input dictionary are
unrepresentable in this typed embedding. -/
def update_course_access_roles (td : List (Nat × List String))
    (userDir : List UserInfo) (courseOrgOf : String → Option String)
    (db : List Row) (user : UserInfo) (tenantId : Nat)
    (tenantRoles : List String) (courseRoles : List (String × List String))
    (dryRun : Bool) : UpdateOutcome :=
  if tenantRoles = [] ∧ ∀ p ∈ courseRoles, p.2 = [] then
    ⟨⟨some FXCode.INVALID_INPUT,
       some "Cannot use empty data in roles update! use delete instead"⟩, db, 0, 0, []⟩
  else if dryRun then ⟨⟨none, none⟩, db, 0, 0, []⟩
  else
    let del := delete_course_access_roles td db [tenantId] user
    let groups : List (String × Bool × List String) :=
      (rolesOfCourses courseRoles).map (fun ρ =>
        (ρ, false, (courseRoles.filter (fun p => decide (ρ ∈ p.2))).map (fun p => p.1)))
      ++ tenantRoles.dedup.map (fun ρ => (ρ, true, ([] : List String)))
    let p := runAdds td userDir courseOrgOf del.1 user tenantId groups
    match p.2.2 with
    | some (c, m) => ⟨⟨some c, some m⟩, p.1, 1, p.2.1, []⟩
    | none => ⟨⟨none, none⟩, p.1, 1, p.2.1, [user.id]⟩

theorem mem_query_imp_pred (db : List QGrant)
    (orgsFilter courseIdsFilter rolesFilter : List String)
    (users : Option (List Nat)) (searchText : Option String)
    (activeFilter : Option Bool) (excludeRoleType : Option RoleType)
    (removeRedundant : Bool) (g : QGrant)
    (hg : g ∈ get_course_access_roles_queryset db orgsFilter courseIdsFilter rolesFilter
      users searchText activeFilter excludeRoleType removeRedundant) :
    queryPred orgsFilter courseIdsFilter rolesFilter users searchText activeFilter
      excludeRoleType g = true := by
  unfold get_course_access_roles_queryset at hg
  cases removeRedundant with
  | false =>
    simp only [if_neg Bool.false_ne_true] at hg
    exact (List.mem_filter.mp hg).2
  | true =>
    simp only [if_pos rfl, removeRedundantStep] at hg
    exact (List.mem_filter.mp (List.mem_filter.mp hg).1).2

/-- Claim C1: whenever an ORG_WIDE grant for `(user, role, org)` is in the
filtered result set, `get_course_access_roles_queryset` with
`remove_redundant=True` excludes every COURSE_SPECIFIC grant with the same
`(user, role, org)`; redundancy elimination runs after all other filters, as
a projection over `(user, role, org)` groups within the filtered set. -/
theorem query_remove_redundant_excludes_covered (db : List QGrant)
    (orgsFilter courseIdsFilter rolesFilter : List String)
    (users : Option (List Nat)) (searchText : Option String)
    (activeFilter : Option Bool) (excludeRoleType : Option RoleType)
    (g g' : QGrant)
    (hmem : g' ∈ get_course_access_roles_queryset db orgsFilter courseIdsFilter
      rolesFilter users searchText activeFilter excludeRoleType false)
    (hwide : g'.roleType = RoleType.org_wide)
    (huser : g.user.id = g'.user.id) (hrole : g.role = g'.role)
    (horg : lowerStr g.org = lowerStr g'.org)
    (hspec : g.roleType = RoleType.course_specific) :
    ¬ g ∈ get_course_access_roles_queryset db orgsFilter courseIdsFilter rolesFilter
        users searchText activeFilter excludeRoleType true
    ∧ get_course_access_roles_queryset db orgsFilter courseIdsFilter rolesFilter
        users searchText activeFilter excludeRoleType true
      = removeRedundantStep (get_course_access_roles_queryset db orgsFilter
          courseIdsFilter rolesFilter users searchText activeFilter excludeRoleType
          false) := by
  have hafter : get_course_access_roles_queryset db orgsFilter courseIdsFilter
      rolesFilter users searchText activeFilter excludeRoleType true
      = removeRedundantStep (get_course_access_roles_queryset db orgsFilter
          courseIdsFilter rolesFilter users searchText activeFilter excludeRoleType
          false) := by
    simp [get_course_access_roles_queryset]
  refine ⟨?_, hafter⟩
  intro hg
  rw [hafter] at hg
  unfold removeRedundantStep at hg
  have hcond := (List.mem_filter.mp hg).2
  simp only [Bool.not_eq_true', Bool.and_eq_false_iff] at hcond
  rcases hcond with hc | hc
  · simp [hspec] at hc
  · rw [List.any_eq_false] at hc
    have := hc g' hmem
    simp [hwide, huser.symm, hrole.symm, horg.symm] at this

/-- Claim C9: grants belonging to superusers and to platform staff users are
excluded from every query result unconditionally, even when those users are
explicitly included in the `users` filter. -/
theorem query_excludes_superuser_and_staff (db : List QGrant)
    (orgsFilter courseIdsFilter rolesFilter : List String)
    (users : Option (List Nat)) (searchText : Option String)
    (activeFilter : Option Bool) (excludeRoleType : Option RoleType)
    (removeRedundant : Bool) :
    (get_course_access_roles_queryset db orgsFilter courseIdsFilter rolesFilter users
      searchText activeFilter excludeRoleType removeRedundant).all
        (fun g => !g.user.isSuperuser && !g.user.isStaff) = true := by
  rw [List.all_eq_true]
  intro g hg
  have hp := mem_query_imp_pred db orgsFilter courseIdsFilter rolesFilter users
    searchText activeFilter excludeRoleType removeRedundant g hg
  unfold queryPred at hp
  simp only [Bool.and_eq_true] at hp
  simp [hp.1.1.1.1.1.1.1]

/-- Claim C10: `ids_string_to_list` silently skips blank tokens (so
`"1,,2,"` yields `[1, 2]` and the empty string yields `[]`), converts each
remaining token to an integer preserving order and duplicates, and fails
only on a non-blank, non-integer token. -/
theorem ids_string_to_list_spec :
    ids_string_to_list "1,,2," = Except.ok [1, 2]
    ∧ ids_string_to_list "" = Except.ok []
    ∧ (∀ s : String, (∀ t ∈ splitComma s, pyStrip t = "" ∨ (pyParseInt (pyStrip t)).isSome) →
        ids_string_to_list s =
          Except.ok ((nonBlankTokens s).filterMap (fun t => pyParseInt (pyStrip t))))
    ∧ (∀ s e, ids_string_to_list s = Except.error e →
        ∃ t ∈ splitComma s, ¬ pyStrip t = "" ∧ pyParseInt (pyStrip t) = none) := by
  refine ⟨by decide, by decide, ?_, ?_⟩
  · intro s h
    unfold ids_string_to_list
    by_cases hs : s = ""
    · subst hs; decide
    · rw [if_neg (by simpa using hs)]
      refine convertTokens_all_ok _ (fun t ht => ?_)
      have hmem := List.mem_filter.mp ht
      rcases h t hmem.1 with hbl | hsome
      · simp [hbl] at hmem
      · exact hsome
  · intro s e herr
    unfold ids_string_to_list at herr
    by_cases hs : s = ""
    · subst hs; simp at herr
    · rw [if_neg (by simpa using hs)] at herr
      obtain ⟨t, ht, hnone⟩ := convertTokens_error_mem _ _ herr
      have hmem := List.mem_filter.mp ht
      refine ⟨t, hmem.1, ?_, hnone⟩
      simpa using hmem.2

/-- Witness for C10: a concrete CSV with blanks and spacing evaluates to the
converted non-blank tokens in order. -/
theorem ids_string_to_list_spec_witness :
    ids_string_to_list "7, 8 ,,9" = Except.ok [7, 8, 9] := by
  have h := ids_string_to_list_spec.2.2.1 "7, 8 ,,9" (by decide)
  rw [h]
  decide

/-- Claim C8: `check_tenant_access` on a CSV containing a non-integer token
fails with `ok=False`, the reason that the input must be a comma-separated
list of integers, and a payload naming the parse error of the (first)
offending token — regardless of whether the other tokens are valid tenant
ids for the user. -/
theorem check_tenant_access_bad_token (allIds userIds : List Int) (csv : String)
    (hbad : ∃ t ∈ splitComma csv, ¬ pyStrip t = "" ∧ pyParseInt (pyStrip t) = none) :
    ∃ t, (nonBlankTokens csv).find? (fun x => (pyParseInt (pyStrip x)).isNone) = some t ∧
      check_tenant_access allIds userIds csv =
        ⟨false, "Invalid tenant IDs provided. It must be a comma-separated list of integers",
          CheckDetails.errorText (intErrorMessage (pyStrip t))⟩ := by
  obtain ⟨t0, ht0, hbl0, hn0⟩ := hbad
  have hne : ¬ csv = "" := by
    intro hc
    subst hc
    have hsc : splitComma "" = [""] := by decide
    rw [hsc] at ht0
    have : t0 = "" := by simpa using ht0
    subst this
    exact hbl0 (by decide)
  have ht0' : t0 ∈ nonBlankTokens csv :=
    List.mem_filter.mpr ⟨ht0, by simpa using hbl0⟩
  have hsome : ((nonBlankTokens csv).find?
      (fun x => (pyParseInt (pyStrip x)).isNone)).isSome := by
    rw [List.find?_isSome]
    exact ⟨t0, ht0', by simp [hn0]⟩
  obtain ⟨t, hfind⟩ := Option.isSome_iff_exists.mp hsome
  have herr : ids_string_to_list csv = Except.error (intErrorMessage (pyStrip t)) := by
    unfold ids_string_to_list
    rw [if_neg (by simpa using hne)]
    exact convertTokens_first_error _ _ hfind
  refine ⟨t, hfind, ?_⟩
  unfold check_tenant_access
  rw [herr]

/-- Witness for C8: the CSV `"1,2,E,7"` fails with the parse error naming
`E`, with the other tokens being valid tenant ids. -/
theorem check_tenant_access_bad_token_witness :
    ∃ t, (nonBlankTokens "1,2,E,7").find? (fun x => (pyParseInt (pyStrip x)).isNone) = some t ∧
      check_tenant_access [1, 2, 7] [1, 2, 7] "1,2,E,7" =
        ⟨false, "Invalid tenant IDs provided. It must be a comma-separated list of integers",
          CheckDetails.errorText (intErrorMessage (pyStrip t))⟩ :=
  check_tenant_access_bad_token [1, 2, 7] [1, 2, 7] "1,2,E,7" (by decide)

/-- A sample non-staff user for concrete evaluations. -/
def sampleUser : UserInfo :=
  ⟨3, "user3", "user3@example.com", true, false, false⟩

/-- A sample ORG_WIDE staff grant for `org1`. -/
def sampleWide : QGrant :=
  ⟨sampleUser, "staff", "org1", ""⟩

/-- A sample COURSE_SPECIFIC staff grant covered by `sampleWide` (same user,
role and org up to case). -/
def sampleCourse : QGrant :=
  ⟨sampleUser, "staff", "ORG1", "course-v1:ORG1+3+3"⟩

/-- Witness for C1: on a concrete table holding an org-wide staff grant and
a covered course-specific one, the course-specific grant is dropped by
`remove_redundant=True`. -/
theorem query_remove_redundant_excludes_covered_witness :
    ¬ sampleCourse ∈ get_course_access_roles_queryset [sampleWide, sampleCourse]
        ["org1"] [] [] none none none none true
    ∧ get_course_access_roles_queryset [sampleWide, sampleCourse]
        ["org1"] [] [] none none none none true
      = removeRedundantStep (get_course_access_roles_queryset [sampleWide, sampleCourse]
          ["org1"] [] [] none none none none false) :=
  query_remove_redundant_excludes_covered [sampleWide, sampleCourse]
    ["org1"] [] [] none none none none sampleCourse sampleWide
    (by decide) (by decide) (by decide) (by decide) (by decide) (by decide)

/-- Claim C3: for every record whose role is classified COURSE_ONLY,
validation fails with a coded ROLE_INVALID_ENTRY error unless both org and
course_id are present, and also fails with ROLE_INVALID_ENTRY when
course_org is supplied and differs from org. -/
theorem validate_course_only_requirements (r : AccessRecord)
    (hrole : r.role ∈ COURSE_ACCESS_ROLES_COURSE_ONLY) :
    ((r.org = "" ∨ r.course_id = "") →
      ∃ m, (validate_course_access_role r).1 = Except.error ⟨FXCode.ROLE_INVALID_ENTRY, m⟩)
    ∧ (¬ r.course_org = "" → ¬ lowerStr r.course_org = lowerStr r.org →
      ∃ m, (validate_course_access_role r).1
        = Except.error ⟨FXCode.ROLE_INVALID_ENTRY, m⟩) := by
  have hcases : r.role = "beta_testers" ∨ r.role = "ccx_coach" ∨ r.role = "finance_admin" := by
    simpa [COURSE_ACCESS_ROLES_COURSE_ONLY] using hrole
  have hknown : r.role ∈ allKnownRoles := by
    rcases hcases with h | h | h <;> rw [h] <;> decide
  have hnotun : ¬ r.role ∈ COURSE_ACCESS_ROLES_UNSUPPORTED := by
    rcases hcases with h | h | h <;> simp [COURSE_ACCESS_ROLES_UNSUPPORTED, h]
  have hnotten : ¬ r.role ∈ COURSE_ACCESS_ROLES_TENANT_ONLY := by
    rcases hcases with h | h | h <;> simp [COURSE_ACCESS_ROLES_TENANT_ONLY, h]
  constructor
  · intro hmissing
    unfold validate_course_access_role
    rw [if_neg (by simp [hknown]), if_neg hnotun, if_pos ⟨hrole, hmissing⟩]
    exact ⟨_, rfl⟩
  · intro hco hdiff
    by_cases hmissing : r.org = "" ∨ r.course_id = ""
    · unfold validate_course_access_role
      rw [if_neg (by simp [hknown]), if_neg hnotun, if_pos ⟨hrole, hmissing⟩]
      exact ⟨_, rfl⟩
    · push_neg at hmissing
      unfold validate_course_access_role
      rw [if_neg (by simp [hknown]), if_neg hnotun,
        if_neg (by rintro ⟨-, h⟩; rcases h with h | h <;> exact absurd h (by simp [hmissing])),
        if_neg (by rintro ⟨h, -⟩; exact hnotten h),
        if_neg (by rintro ⟨h, -⟩; exact hnotten h),
        if_neg ?_, if_pos ⟨hmissing.2, hco, hdiff⟩]
      · exact ⟨_, rfl⟩
      · rintro ⟨h, -⟩
        rcases hcases with h1 | h1 | h1 <;>
          simp [COURSE_ACCESS_ROLES_TENANT_OR_COURSE, h1] at h

/-- Witness for C3: a concrete COURSE_ONLY record with a present org and
course but a mismatched course_org is rejected with ROLE_INVALID_ENTRY. -/
theorem validate_course_only_requirements_witness :
    ∃ m, (validate_course_access_role ⟨99, 33, "beta_testers", "org1", "an id", "org2"⟩).1
      = Except.error ⟨FXCode.ROLE_INVALID_ENTRY, m⟩ :=
  (validate_course_only_requirements ⟨99, 33, "beta_testers", "org1", "an id", "org2"⟩
    (by decide)).2 (by decide) (by decide)

/-- Counterexample for C4: a record carrying an UNSUPPORTED role name is
rejected by the validator (coded ROLE_UNSUPPORTED) yet emits no log line at
all, contradicting "logged exactly once ... for every kind of violation the
validator detects, including an UNSUPPORTED role name". -/
theorem validate_unsupported_not_logged :
    (validate_course_access_role ⟨99, 33, "library_user", "", "", ""⟩).2 = []
    ∧ (validate_course_access_role ⟨99, 33, "library_user", "", "", ""⟩).1
      = Except.error ⟨FXCode.ROLE_UNSUPPORTED, "unsupported role (library_user)!"⟩ := by
  decide

/-- Claim C4 (amended): every violation surfaced as ROLE_INVALID_ENTRY is
logged exactly once, with the record's id and the human-readable message
(role name interpolated); the UNSUPPORTED case is surfaced as a coded
ROLE_UNSUPPORTED failure without logging. -/
theorem validate_logs_invalid_entry_once (r : AccessRecord) (e : FXError)
    (h : (validate_course_access_role r).1 = Except.error e) :
    (e.code = FXCode.ROLE_UNSUPPORTED → (validate_course_access_role r).2 = [])
    ∧ (¬ e.code = FXCode.ROLE_UNSUPPORTED →
        (validate_course_access_role r).2 = [logLine r.id e.message]) := by
  unfold validate_course_access_role at h ⊢
  split_ifs at h ⊢ <;>
    simp_all <;>
    (obtain rfl := h.symm) <;> simp

/-- Witness for C4 (amended): a concrete COURSE_ONLY record missing its
course_id is logged exactly once with its id and interpolated message. -/
theorem validate_logs_invalid_entry_once_witness :
    (validate_course_access_role ⟨99, 33, "beta_testers", "org1", "", ""⟩).2
      = [logLine 99 "role beta_testers must have both course_id and org!"] :=
  (validate_logs_invalid_entry_once ⟨99, 33, "beta_testers", "org1", "", ""⟩
    ⟨FXCode.ROLE_INVALID_ENTRY, "role beta_testers must have both course_id and org!"⟩
    (by decide)).2 (by decide)

/-- Claim C5: `delete_course_access_roles` for a user holding zero grants
inside the given tenants' orgs fails with a coded error whose message names
the user and the tenant ids, and returns the grant table unchanged — a hard
failure, not a silent no-op. -/
theorem delete_no_roles_fails_unchanged (td : List (Nat × List String))
    (db : List Row) (tenantIds : List Nat) (user : UserInfo)
    (h : ∀ r ∈ db, r.userId = user.id →
      ¬ lowerStr r.org ∈ orgsOfTenantsLower td tenantIds) :
    delete_course_access_roles td db tenantIds user =
      (db, some ⟨FXCode.ROLE_DELETE,
        "No role found to delete for the user (" ++ user.username
          ++ ") within the given tenants " ++ fmtNatList tenantIds ++ "!"⟩) := by
  have hrem : db.filter (fun r => !decide (r.userId = user.id ∧
      lowerStr r.org ∈ orgsOfTenantsLower td tenantIds)) = db := by
    apply List.filter_eq_self.mpr
    intro r hr
    simp only [Bool.not_eq_true', decide_eq_false_iff_not]
    rintro ⟨h1, h2⟩
    exact h r hr h1 h2
  simp only [delete_course_access_roles, hrem, if_pos rfl, if_true]

/-- A user holding grants only in `org3`, outside the sample tenant. -/
def outsideUser : UserInfo :=
  ⟨23, "user23", "user23@example.com", true, false, false⟩

/-- Witness for C5: deleting `outsideUser` from tenant `1` (orgs `org1`,
`org2`) fails with the exact message while the table keeps their `org3`
grants. -/
theorem delete_no_roles_fails_unchanged_witness :
    delete_course_access_roles [(1, ["org1", "org2"])]
        [⟨23, "staff", "org3", ""⟩, ⟨23, "instructor", "org3", ""⟩] [1] outsideUser =
      ([⟨23, "staff", "org3", ""⟩, ⟨23, "instructor", "org3", ""⟩],
        some ⟨FXCode.ROLE_DELETE,
          "No role found to delete for the user (user23) within the given tenants [1]!"⟩) := by
  have h := delete_no_roles_fails_unchanged [(1, ["org1", "org2"])]
    [⟨23, "staff", "org3", ""⟩, ⟨23, "instructor", "org3", ""⟩] [1] outsideUser
    (by decide)
  rw [h]
  decide

/-- Claim C6: `update_course_access_roles` with empty tenant roles and all
course role lists empty always returns INVALID_INPUT with the "use delete
instead" message and performs no delete and no add calls — update never
implicitly means "remove everything". -/
theorem update_empty_input_rejected (td : List (Nat × List String))
    (userDir : List UserInfo) (courseOrgOf : String → Option String)
    (db : List Row) (user : UserInfo) (tenantId : Nat)
    (courseRoles : List (String × List String)) (dryRun : Bool)
    (hempty : ∀ p ∈ courseRoles, p.2 = []) :
    update_course_access_roles td userDir courseOrgOf db user tenantId [] courseRoles
        dryRun =
      ⟨⟨some FXCode.INVALID_INPUT,
         some "Cannot use empty data in roles update! use delete instead"⟩,
        db, 0, 0, []⟩ := by
  unfold update_course_access_roles
  rw [if_pos ⟨rfl, hempty⟩]

/-- Witness for C6: the concrete empty update of the test suite, including
the variant whose course map holds only an empty list. -/
theorem update_empty_input_rejected_witness :
    update_course_access_roles [(1, ["org1", "org2"])] [sampleUser] (fun _ => none)
        [] sampleUser 1 [] [("course", [])] false =
      ⟨⟨some FXCode.INVALID_INPUT,
         some "Cannot use empty data in roles update! use delete instead"⟩,
        [], 0, 0, []⟩ :=
  update_empty_input_rejected [(1, ["org1", "org2"])] [sampleUser] (fun _ => none)
    [] sampleUser 1 [("course", [])] false (by decide)

theorem mem_userRowsOf {db : List Row} {u : Nat} {T : List String} {r : Row} :
    r ∈ userRowsOf db u T ↔ r ∈ db ∧ r.userId = u ∧ lowerStr r.org ∈ T := by
  simp [userRowsOf, List.mem_filter, and_assoc]

theorem mem_roleKeysOf {db : List Row} {u : Nat} {ρ : String} {T : List String}
    {k : Key} :
    k ∈ roleKeysOf db u ρ T ↔
      ∃ r, r ∈ db ∧ r.userId = u ∧ lowerStr r.org ∈ T ∧ r.role = ρ ∧ Row.key r = k := by
  simp only [roleKeysOf, List.mem_map, List.mem_filter, decide_eq_true_eq,
    mem_userRowsOf]
  constructor
  · rintro ⟨r, ⟨⟨h1, h2, h3⟩, h4⟩, h5⟩
    exact ⟨r, h1, h2, h3, h4, h5⟩
  · rintro ⟨r, h1, h2, h3, h4, h5⟩
    exact ⟨r, ⟨⟨h1, h2, h3⟩, h4⟩, h5⟩

theorem mem_redundantOf_course_specific {db : List Row} {u : Nat} {ρ : String}
    {T : List String} {D : List Key} {k : Key}
    (h : k ∈ redundantOf db u ρ T D) : ¬ k.courseId = "" := by
  have := (List.mem_filter.mp h).2
  simp only [Bool.and_eq_true, Bool.not_eq_true', decide_eq_false_iff_not] at this
  exact this.1

theorem mem_redundantOf {db : List Row} {u : Nat} {ρ : String}
    {T : List String} {D : List Key} {k : Key}
    (hk : k ∈ roleKeysOf db u ρ T) (hcs : ¬ k.courseId = "")
    (k2 : Key) (hk2 : k2 ∈ roleKeysOf db u ρ T ++ D)
    (hk2w : k2.courseId = "") (hk2o : k2.orgLowerCase = k.orgLowerCase) :
    k ∈ redundantOf db u ρ T D := by
  apply List.mem_filter.mpr
  refine ⟨hk, ?_⟩
  simp only [Bool.and_eq_true, Bool.not_eq_true', decide_eq_false_iff_not,
    List.any_eq_true, decide_eq_true_eq]
  exact ⟨hcs, k2, hk2, hk2w, hk2o⟩

theorem processUser_tenant_wide_idem (db : List Row) (u : Nat) (ρ : String)
    (T : List String) (hT : ∀ o ∈ T, lowerStr o = o) :
    processUser (processUser db u ρ T (T.map (fun o => Key.mk ρ o ""))).2 u ρ T
        (T.map (fun o => Key.mk ρ o ""))
      = (Outcome.notUpdated, (processUser db u ρ T (T.map (fun o => Key.mk ρ o ""))).2) := by
  set D := T.map (fun o => Key.mk ρ o "") with hD
  set R := redundantOf db u ρ T D with hR
  set C := toCreateOf db u ρ T D with hC
  have hsnd : (processUser db u ρ T D).2
      = db.filter (fun r => !decide (r.userId = u ∧ r.key ∈ R))
        ++ C.map (fun k => (⟨u, ρ, k.orgLowerCase, k.courseId⟩ : Row)) := rfl
  set db' := db.filter (fun r => !decide (r.userId = u ∧ r.key ∈ R))
    ++ C.map (fun k => (⟨u, ρ, k.orgLowerCase, k.courseId⟩ : Row)) with hdb
  rw [hsnd]
  have hfact1 : ∀ k ∈ roleKeysOf db' u ρ T, k.courseId = "" := by
    intro k hk
    obtain ⟨r, hrdb, hru, hrorg, hrrole, hrkey⟩ := mem_roleKeysOf.mp hk
    rw [hdb, List.mem_append] at hrdb
    rcases hrdb with hsurv | hcreated
    · have hsf := List.mem_filter.mp hsurv
      by_contra hcs
      have hrk1 : Row.key r ∈ roleKeysOf db u ρ T :=
        mem_roleKeysOf.mpr ⟨r, hsf.1, hru, hrorg, hrrole, rfl⟩
      have hcs' : ¬ (Row.key r).courseId = "" := by rw [hrkey]; exact hcs
      have hred : Row.key r ∈ R := by
        rw [hR]
        refine mem_redundantOf hrk1 hcs' ⟨ρ, lowerStr r.org, ""⟩ ?_ rfl rfl
        apply List.mem_append.mpr
        right
        rw [hD]
        exact List.mem_map.mpr ⟨lowerStr r.org, hrorg, rfl⟩
      have hp := hsf.2
      simp only [Bool.not_eq_true', decide_eq_false_iff_not] at hp
      exact hp ⟨hru, hred⟩
    · obtain ⟨k0, hk0, hk0eq⟩ := List.mem_map.mp hcreated
      have hk0D : k0 ∈ D := (List.mem_filter.mp (hC ▸ hk0)).1
      obtain ⟨o, ho, rfl⟩ := List.mem_map.mp (hD ▸ hk0D)
      rw [← hrkey, ← hk0eq]
      simp [Row.key]
  have hfact2 : ∀ k ∈ D, k ∈ roleKeysOf db' u ρ T := by
    intro k hkD
    obtain ⟨o, hoT, rfl⟩ := List.mem_map.mp (hD ▸ hkD)
    by_cases h1 : (Key.mk ρ o "") ∈ roleKeysOf db u ρ T
    · obtain ⟨r, hrdb, hru, hrorg, hrrole, hrkey⟩ := mem_roleKeysOf.mp h1
      have hnotred : ¬ Row.key r ∈ R := by
        intro hcon
        have hcs := mem_redundantOf_course_specific (hR ▸ hcon)
        rw [hrkey] at hcs
        exact hcs rfl
      have hsurv : r ∈ db' := by
        rw [hdb]
        apply List.mem_append.mpr
        left
        refine List.mem_filter.mpr ⟨hrdb, ?_⟩
        simp only [Bool.not_eq_true', decide_eq_false_iff_not]
        rintro ⟨-, hmem⟩
        exact hnotred hmem
      exact mem_roleKeysOf.mpr ⟨r, hsurv, hru, hrorg, hrrole, hrkey⟩
    · have hkC : (Key.mk ρ o "") ∈ C := by
        rw [hC]
        refine List.mem_filter.mpr ⟨hkD, ?_⟩
        simp only [Bool.not_eq_true', decide_eq_false_iff_not]
        exact h1
      have hrow : (⟨u, ρ, o, ""⟩ : Row) ∈ db' := by
        rw [hdb]
        apply List.mem_append.mpr
        right
        exact List.mem_map.mpr ⟨Key.mk ρ o "", hkC, rfl⟩
      refine mem_roleKeysOf.mpr ⟨⟨u, ρ, o, ""⟩, hrow, rfl, ?_, rfl, ?_⟩
      · show lowerStr o ∈ T
        rw [hT o hoT]
        exact hoT
      · show Row.key ⟨u, ρ, o, ""⟩ = Key.mk ρ o ""
        simp [Row.key, hT o hoT]
  have hC2 : toCreateOf db' u ρ T D = [] := by
    rw [toCreateOf, List.filter_eq_nil_iff]
    intro k hk
    simp only [Bool.not_eq_true', decide_eq_false_iff_not, not_not]
    exact hfact2 k hk
  have hR2 : redundantOf db' u ρ T D = [] := by
    rw [redundantOf, List.filter_eq_nil_iff]
    intro k hk
    simp only [Bool.and_eq_true, Bool.not_eq_true', decide_eq_false_iff_not, not_and]
    intro hcs
    exact absurd (hfact1 k hk) hcs
  have hself : db'.filter (fun r =>
      !decide (r.userId = u ∧ r.key ∈ ([] : List Key))) = db' := by
    apply List.filter_eq_self.mpr
    intro r hr
    simp
  show processUser db' u ρ T D = (Outcome.notUpdated, db')
  unfold processUser
  rw [hC2, hR2]
  simp [hself]

theorem orgsOfTenantsLower_lower (td : List (Nat × List String)) (ids : List Nat) :
    ∀ o ∈ orgsOfTenantsLower td ids, lowerStr o = o := by
  intro o ho
  obtain ⟨x, hx, rfl⟩ := List.mem_map.mp ho
  exact lowerStr_idem x

/-- Claim C2 (amended): whenever a tenant-wide `add_course_access_roles`
call for a single user key succeeds with no failed entry — in particular
when it reports `updated=[U]` — the identical second call on the resulting
state is a no-op classified as `not_updated=[U]` and leaves the grant table
unchanged. -/
theorem add_second_identical_call_not_updated (td : List (Nat × List String))
    (userDir : List UserInfo) (courseOrgOf : String → Option String)
    (db : List Row) (u : Nat) (o : AddOutcome)
    (h1 : add_course_access_roles td userDir courseOrgOf db [1] [u] "staff" true []
      false = Except.ok o)
    (h2 : o.result.failed = []) :
    add_course_access_roles td userDir courseOrgOf o.db [1] [u] "staff" true [] false
      = Except.ok ⟨⟨[], [], [u], []⟩, o.db, [u]⟩ := by
  unfold add_course_access_roles at h1 ⊢
  cases hv : addValidate td courseOrgOf [1] [u] "staff" true [] with
  | some e =>
    rw [hv] at h1
    exact absurd h1 (by simp)
  | none =>
    rw [hv] at h1
    simp only [desiredKeys, eq_self_iff_true, if_true, Bool.false_eq_true, if_false]
      at h1 ⊢
    cases hf : userDir.find? (fun v => decide (v.id = u)) with
    | none =>
      simp only [processUsers, hf] at h1
      obtain rfl := (Except.ok.inj h1).symm
      simp at h2
    | some w =>
      have hsome : (userDir.find? (fun v => decide (v.id = u))).isSome := by
        rw [hf]
        rfl
      rw [List.find?_isSome] at hsome
      have hany : userDir.any (fun v => decide (v.id = u)) = true := by
        rw [List.any_eq_true]
        exact hsome
      have hidem := processUser_tenant_wide_idem db u "staff"
        (orgsOfTenantsLower td [1]) (orgsOfTenantsLower_lower td [1])
      simp only [processUsers, hf] at h1 ⊢
      cases hq : (processUser db u "staff" (orgsOfTenantsLower td [1])
          ((orgsOfTenantsLower td [1]).map (fun o => Key.mk "staff" o ""))).1 <;>
        rw [hq] at h1 <;>
        simp only [Bool.false_eq_true, if_false, List.filter_cons, List.filter_nil,
          hany, if_pos rfl] at h1 <;>
        obtain rfl := (Except.ok.inj h1).symm <;>
        simp only [] <;>
        rw [hidem] <;>
        simp [hany]

/-- Claim C7: `add_course_access_roles` with `dry_run=True` returns the
same `{added, updated, not_updated, failed}` classification as the
non-dry-run call would, while changing nothing: the grant table is
unchanged, no cache entry is invalidated, and a subsequent non-dry-run call
with the same arguments behaves as if the dry run never happened. -/
theorem add_dry_run_frame (td : List (Nat × List String)) (userDir : List UserInfo)
    (courseOrgOf : String → Option String) (db : List Row)
    (tenantIds : List Nat) (userKeys : List Nat) (role : String)
    (tenantWide : Bool) (courseIds : List String) (o : AddOutcome)
    (h : add_course_access_roles td userDir courseOrgOf db tenantIds userKeys role
      tenantWide courseIds true = Except.ok o) :
    o.db = db ∧ o.cacheInvalidated = []
    ∧ (∃ o', add_course_access_roles td userDir courseOrgOf db tenantIds userKeys role
        tenantWide courseIds false = Except.ok o' ∧ o'.result = o.result)
    ∧ add_course_access_roles td userDir courseOrgOf o.db tenantIds userKeys role
        tenantWide courseIds false
      = add_course_access_roles td userDir courseOrgOf db tenantIds userKeys role
        tenantWide courseIds false := by
  unfold add_course_access_roles at h ⊢
  cases hv : addValidate td courseOrgOf tenantIds userKeys role tenantWide courseIds with
  | some e =>
    rw [hv] at h
    exact absurd h (by simp)
  | none =>
    rw [hv] at h
    simp only [eq_self_iff_true, if_true] at h
    obtain rfl := (Except.ok.inj h).symm
    refine ⟨rfl, rfl, ?_, rfl⟩
    simp only [Bool.false_eq_true, if_false]
    exact ⟨_, rfl, rfl⟩

/-- The tenant directory used by the concrete mutation examples: tenant `1`
holds the orgs `org1` and `org2`. -/
def sampleTenantDir : List (Nat × List String) := [(1, ["org1", "org2"])]

/-- The user directory used by the concrete mutation examples. -/
def sampleUserDir : List UserInfo := [sampleUser]

/-- A course catalog for examples that involve no course ids. -/
def noCourses : String → Option String := fun _ => none

/-- The initial grants of `sampleUser`: an org-wide staff grant, a redundant
course-specific staff grant, and two course-specific instructor grants, all
in `org1`. -/
def sampleDb : List Row :=
  [⟨3, "staff", "org1", ""⟩, ⟨3, "staff", "org1", "course-v1:ORG1+3+3"⟩,
   ⟨3, "instructor", "org1", "course-v1:ORG1+3+3"⟩,
   ⟨3, "instructor", "org1", "course-v1:ORG1+4+4"⟩]

/-- What the first tenant-wide staff add call on `sampleDb` produces: the
redundant staff grant is cleaned away, the missing `org2` org-wide grant is
created, and the user is classified `updated`. -/
def firstCallOutcome : AddOutcome :=
  ⟨⟨[], [3], [], []⟩,
   [⟨3, "staff", "org1", ""⟩, ⟨3, "instructor", "org1", "course-v1:ORG1+3+3"⟩,
    ⟨3, "instructor", "org1", "course-v1:ORG1+4+4"⟩, ⟨3, "staff", "org2", ""⟩],
   [3]⟩

/-- Counterexample for C2: for a user with no prior grants at all, the first
tenant-wide add call with `tenant_ids=[1]`, role `staff` and empty
`course_ids` classifies the user as `added`, not `updated` — so the claim's
"yields `updated=[U]` on the first call" fails on this state. -/
theorem add_first_call_added_not_updated :
    Except.map (fun o => o.result.added)
      (add_course_access_roles [(1, ["org1"])]
        [⟨43, "user43", "user43@example.com", true, false, false⟩]
        noCourses [] [1] [43] "staff" true [] false) = Except.ok [43]
    ∧ ¬ Except.map (fun o => o.result.updated)
      (add_course_access_roles [(1, ["org1"])]
        [⟨43, "user43", "user43@example.com", true, false, false⟩]
        noCourses [] [1] [43] "staff" true [] false) = Except.ok [43] := by
  decide

/-- Witness for C2 (amended): on `sampleDb` the first call reports
`updated=[3]`, and the identical second call reports `not_updated=[3]` with
the table unchanged. -/
theorem add_second_identical_call_not_updated_witness :
    add_course_access_roles sampleTenantDir sampleUserDir noCourses sampleDb
        [1] [3] "staff" true [] false = Except.ok firstCallOutcome
    ∧ add_course_access_roles sampleTenantDir sampleUserDir noCourses
        firstCallOutcome.db [1] [3] "staff" true [] false
      = Except.ok ⟨⟨[], [], [3], []⟩, firstCallOutcome.db, [3]⟩ :=
  ⟨by decide,
   add_second_identical_call_not_updated sampleTenantDir sampleUserDir noCourses
     sampleDb 3 firstCallOutcome (by decide) (by decide)⟩

/-- Witness for C7: the concrete dry run on `sampleDb` returns the same
classification as the real call, leaves the table unchanged and invalidates
no cache entry. -/
theorem add_dry_run_frame_witness :
    AddOutcome.db ⟨⟨[], [3], [], []⟩, sampleDb, []⟩ = sampleDb
    ∧ AddOutcome.cacheInvalidated ⟨⟨[], [3], [], []⟩, sampleDb, []⟩ = []
    ∧ (∃ o', add_course_access_roles sampleTenantDir sampleUserDir noCourses sampleDb
        [1] [3] "staff" true [] false = Except.ok o'
        ∧ o'.result = AddOutcome.result ⟨⟨[], [3], [], []⟩, sampleDb, []⟩)
    ∧ add_course_access_roles sampleTenantDir sampleUserDir noCourses
        (AddOutcome.db ⟨⟨[], [3], [], []⟩, sampleDb, []⟩) [1] [3] "staff" true [] false
      = add_course_access_roles sampleTenantDir sampleUserDir noCourses sampleDb
        [1] [3] "staff" true [] false :=
  add_dry_run_frame sampleTenantDir sampleUserDir noCourses sampleDb [1] [3] "staff"
    true [] ⟨⟨[], [3], [], []⟩, sampleDb, []⟩ (by decide)

end FxRoles
